import Mathlib

/-!
Verification of the MPRIS media-player service in
src/services/mpris/mod.rs (ashell-niri).

The development shallowly embeds the service: bus I/O is modelled by
explicit oracles (a connect function deciding which endpoint proxies can
be established and what their property reads return, and an environment
describing the outcome of each bus enumeration), f64 volumes are
modelled as rationals, and the async driver loop is modelled as a step
function on the discovery state iterated a finite number of steps.
-/

namespace Mpris

/-- Value stored in the raw metadata property map (zvariant OwnedValue);
only the conversions the code attempts are distinguished. -/
inductive OwnedValue
  | strs (v : List String)
  | str (v : String)
  | other
  deriving DecidableEq

/-- Conversion attempt OwnedValue -> Vec<String> (try_into in the From impl):
Ok becomes some, Err becomes none. -/
def tryIntoStrings : OwnedValue → Option (List String)
  | OwnedValue.strs v => some v
  | _ => none

/-- Conversion attempt OwnedValue -> String (try_into in the From impl). -/
def tryIntoString : OwnedValue → Option String
  | OwnedValue.str v => some v
  | _ => none

/-- Track metadata: optional artist list and optional title
(struct MprisPlayerMetadata). -/
structure MprisPlayerMetadata where
  artists : Option (List String)
  title : Option String
  deriving DecidableEq

/-- Raw property map returned by the metadata property read; the Rust
HashMap lookup is modelled by first-match association-list lookup. -/
def lookupKey (value : List (String × OwnedValue)) (k : String) : Option OwnedValue :=
  (value.find? (fun p => p.1 == k)).map (fun p => p.2)

/-- Embedding of `impl From<HashMap<String, OwnedValue>> for MprisPlayerMetadata`:
each field is extracted from its xesam key, a failed conversion becoming none. -/
def MprisPlayerMetadata.fromRaw (value : List (String × OwnedValue)) : MprisPlayerMetadata :=
  { artists :=
      match lookupKey value "xesam:artist" with
      | some v => tryIntoStrings v
      | none => none
    title :=
      match lookupKey value "xesam:title" with
      | some v => tryIntoString v
      | none => none }

/-- Embedding of `impl Display for MprisPlayerMetadata`; Vec::join is
String.intercalate and the format string is concatenation. -/
def MprisPlayerMetadata.display (m : MprisPlayerMetadata) : String :=
  match m.artists, m.title with
  | none, none => ""
  | none, some t => t
  | some a, none => String.intercalate ", " a
  | some a, some t => String.intercalate ", " a ++ " - " ++ t

/-- A successfully constructed MprisPlayerProxy, described by what its two
property reads would return: none models a failed (Err) read, some a
successful one. Volumes are rationals standing in for f64. -/
structure Proxy where
  metadataRaw : Option (List (String × OwnedValue))
  volumeRead : Option ℚ
  deriving DecidableEq

/-- One snapshot entry (struct MprisPlayerData). -/
structure MprisPlayerData where
  service : String
  metadata : Option MprisPlayerMetadata
  volume : Option ℚ
  proxy : Proxy
  deriving DecidableEq

/-- The entry built for one endpoint once its proxy is connected, from the
body of the Ok(proxy) arm of get_mpris_player_data: metadata is
map_or(None, Some . from) of the read, volume is the read scaled by 100. -/
def buildEntry (s : String) (p : Proxy) : MprisPlayerData :=
  { service := s
    metadata := p.metadataRaw.map MprisPlayerMetadata.fromRaw
    volume := p.volumeRead.map (fun v => v * 100)
    proxy := p }

/-- Embedding of MprisPlayerService::get_mpris_player_data. The bus is the
oracle connect : name -> Option Proxy (none = MprisPlayerProxy::new failed).
The source maps every name to an Option entry concurrently (join_all) and
flattens, dropping failures; the result type has no error channel, so no
error is ever reported to the caller. -/
def get_mpris_player_data (connect : String → Option Proxy)
    (names : List String) : List MprisPlayerData :=
  (names.map (fun s =>
    match connect s with
    | some proxy => some (buildEntry s proxy)
    | none => none)).reduceOption

/-- The map-then-flatten form coincides with a single filterMap. -/
theorem get_mpris_player_data_eq_filterMap (connect : String → Option Proxy)
    (names : List String) :
    get_mpris_player_data connect names
      = names.filterMap (fun s => (connect s).map (buildEntry s)) := by
  unfold get_mpris_player_data List.reduceOption
  rw [List.filterMap_map]
  apply List.filterMap_congr
  intro s _
  simp only [Function.comp_apply, id_eq]
  cases h : connect s <;> simp [h]

/-- C10: the display rendering of metadata is empty when both fields are
absent, the title alone when only the title is present, the comma-joined
artist list when only artists are present, and "artists - title" when both
are present; on artists = [X, Y], title = Song it renders "X, Y - Song". -/
theorem display_rendering_cases (a : List String) (t : String) :
    MprisPlayerMetadata.display { artists := none, title := none } = ""
    ∧ MprisPlayerMetadata.display { artists := none, title := some t } = t
    ∧ MprisPlayerMetadata.display { artists := some a, title := none }
        = String.intercalate ", " a
    ∧ MprisPlayerMetadata.display { artists := some a, title := some t }
        = String.intercalate ", " a ++ " - " ++ t
    ∧ MprisPlayerMetadata.display { artists := some ["X", "Y"], title := some "Song" }
        = "X, Y - Song" := by
  refine ⟨rfl, rfl, rfl, rfl, rfl⟩

/-- C5: the snapshot builder keeps exactly the successfully connected
identities, in input order (the services of the result are the input list
filtered to the connecting names), and the number of entries is N - K where
N is the number of input identities and K the number that fail to connect. -/
theorem snapshot_builder_partial_failure (connect : String → Option Proxy)
    (names : List String) :
    (get_mpris_player_data connect names).map MprisPlayerData.service
      = names.filter (fun s => (connect s).isSome)
    ∧ (get_mpris_player_data connect names).length
      = names.length - (names.filter (fun s => (connect s).isNone)).length := by
  have hmap : (get_mpris_player_data connect names).map MprisPlayerData.service
      = names.filter (fun s => (connect s).isSome) := by
    rw [get_mpris_player_data_eq_filterMap]
    induction names with
    | nil => rfl
    | cons n rest ih =>
      rw [List.filterMap_cons, List.filter_cons]
      cases h : connect n with
      | some p => simpa [h, buildEntry] using ih
      | none => simpa [h] using ih
  refine ⟨hmap, ?_⟩
  have hlen : (get_mpris_player_data connect names).length
      = (names.filter (fun s => (connect s).isSome)).length := by
    rw [← hmap, List.length_map]
  rw [hlen]
  have hsplit : ∀ l : List String,
      (l.filter (fun s => (connect s).isSome)).length
      + (l.filter (fun s => (connect s).isNone)).length = l.length := by
    intro l
    induction l with
    | nil => rfl
    | cons n rest ih =>
      rw [List.filter_cons, List.filter_cons]
      cases h : connect n <;> simp [h] <;> omega
  have := hsplit names
  omega

/-- C9: for an endpoint whose proxy connects, the produced entry tolerates
per-field read failures (failed metadata read gives metadata = none, failed
volume read gives volume = none, neither drops the entry), and a successful
volume read v is scaled to the percentage v * 100, so a native volume of
1/2 yields the percentage 50. -/
theorem connected_entry_field_reads (connect : String → Option Proxy)
    (s : String) (p : Proxy) (h : connect s = some p) :
    get_mpris_player_data connect [s] = [buildEntry s p]
    ∧ (p.metadataRaw = none → (buildEntry s p).metadata = none)
    ∧ (p.volumeRead = none → (buildEntry s p).volume = none)
    ∧ (∀ v : ℚ, p.volumeRead = some v → (buildEntry s p).volume = some (v * 100))
    ∧ (p.volumeRead = some (1/2) → (buildEntry s p).volume = some 50) := by
  refine ⟨?_, ?_, ?_, ?_, ?_⟩
  · rw [get_mpris_player_data_eq_filterMap]
    simp [h]
  · intro hm
    simp [buildEntry, hm]
  · intro hv
    simp [buildEntry, hv]
  · intro v hv
    simp [buildEntry, hv]
  · intro hv
    simp [buildEntry, hv]
    norm_num

/-- A proxy whose metadata and volume reads both succeed. -/
def proxyA : Proxy :=
  { metadataRaw := some [("xesam:title", OwnedValue.str "Song"),
                         ("xesam:artist", OwnedValue.strs ["X", "Y"])]
    volumeRead := some (1/2) }

/-- A connect oracle knowing only the endpoint org.mpris.MediaPlayer2.A. -/
def connectA : String → Option Proxy :=
  fun s => if s = "org.mpris.MediaPlayer2.A" then some proxyA else none

/-- Witness for C9 at the concrete endpoint A with native volume 1/2. -/
theorem connected_entry_field_reads_witness :
    connectA "org.mpris.MediaPlayer2.A" = some proxyA
    ∧ (get_mpris_player_data connectA ["org.mpris.MediaPlayer2.A"]
        = [buildEntry "org.mpris.MediaPlayer2.A" proxyA]
      ∧ (proxyA.metadataRaw = none →
          (buildEntry "org.mpris.MediaPlayer2.A" proxyA).metadata = none)
      ∧ (proxyA.volumeRead = none →
          (buildEntry "org.mpris.MediaPlayer2.A" proxyA).volume = none)
      ∧ (∀ v : ℚ, proxyA.volumeRead = some v →
          (buildEntry "org.mpris.MediaPlayer2.A" proxyA).volume = some (v * 100))
      ∧ (proxyA.volumeRead = some (1/2) →
          (buildEntry "org.mpris.MediaPlayer2.A" proxyA).volume = some 50)) :=
  ⟨rfl,
   connected_entry_field_reads connectA "org.mpris.MediaPlayer2.A" proxyA rfl⟩

/-- Namespace of player bus names (const MPRIS_PLAYER_SERVICE_PREFIX). -/
def MPRIS_PLAYER_SERVICE_PREFIX : String := "org.mpris.MediaPlayer2."

/-- Subscriptions held by the event multiplexer stream returned by events:
the bus-wide name-owner-changed signal, and the metadata-changed and
volume-changed property streams of each proxy it connected. -/
inductive BusSubscription
  | nameOwnerChanged
  | metadataChanged (service : String)
  | volumeChanged (service : String)
  deriving DecidableEq

/-- One bus interaction context: the outcome of the DBus enumeration
(list_names, with error covering the fallible proxy setup around it) and
the connect oracle in force at that moment. -/
structure BusEnv where
  listNames : Except Unit (List String)
  connect : String → Option Proxy

/-- Subscriptions assembled by the body of events once list_names returned
allNames: one name-owner-changed subscription, then a metadata-changed and
a volume-changed subscription for every name whose MprisPlayerProxy
connected (failures are logged and flattened away). The source applies no
player-namespace filter to these names. -/
def eventSubs (connect : String → Option Proxy) (allNames : List String) :
    List BusSubscription :=
  let services := allNames.filter (fun n => (connect n).isSome)
  BusSubscription.nameOwnerChanged ::
    (services.map BusSubscription.metadataChanged
      ++ services.map BusSubscription.volumeChanged)

/-- Embedding of MprisPlayerService::events: fails when the bus enumeration
fails, otherwise returns the merged stream, described here by the set of
subscriptions it holds. -/
def events (bus : BusEnv) : Except Unit (List BusSubscription) :=
  match bus.listNames with
  | Except.error e => Except.error e
  | Except.ok allNames => Except.ok (eventSubs bus.connect allNames)

/-- A bus whose only participant is the DBus daemon name itself, which is
not a player name, with a connect oracle that accepts every name. -/
def dbusOnlyBus : BusEnv :=
  { listNames := Except.ok ["org.freedesktop.DBus"]
    connect := fun _ => some proxyA }

set_option maxRecDepth 4096 in
/-- C2 counterexample: on a bus whose only listed name is
org.freedesktop.DBus (which does not carry the player-namespace prefix,
with a proxy that connects), events still creates metadata-changed and
volume-changed subscriptions for it, so subscriptions are not created only
for bus names matching the player-namespace prefix. -/
theorem events_subscribes_nonplayer_names :
    events dbusOnlyBus
      = Except.ok [BusSubscription.nameOwnerChanged,
          BusSubscription.metadataChanged "org.freedesktop.DBus",
          BusSubscription.volumeChanged "org.freedesktop.DBus"]
    ∧ "org.freedesktop.DBus".startsWith MPRIS_PLAYER_SERVICE_PREFIX = false :=
  ⟨rfl, by decide⟩

/-- C2 amended: when the event multiplexer stream is constructed, the
per-endpoint metadata-changed and volume-changed subscriptions are created
exactly for the bus names returned by the enumeration whose proxy connects,
with no filtering by the player-namespace prefix (plus the single
name-owner-changed subscription, which is prefix-filtered per event). -/
theorem events_subscription_set (connect : String → Option Proxy)
    (allNames : List String) (s : String) :
    events { listNames := Except.ok allNames, connect := connect }
      = Except.ok (eventSubs connect allNames)
    ∧ (BusSubscription.metadataChanged s ∈ eventSubs connect allNames
        ↔ s ∈ allNames ∧ (connect s).isSome)
    ∧ (BusSubscription.volumeChanged s ∈ eventSubs connect allNames
        ↔ s ∈ allNames ∧ (connect s).isSome)
    ∧ BusSubscription.nameOwnerChanged ∈ eventSubs connect allNames := by
  refine ⟨rfl, ?_, ?_, ?_⟩
  · simp [eventSubs, List.mem_filter]
  · simp [eventSubs, List.mem_filter]
  · simp [eventSubs]

/-- Opaque handle to the session bus connection (zbus::Connection). -/
inductive Conn
  | session
  deriving DecidableEq

/-- The service value held by subscribers (struct MprisPlayerService). -/
structure MprisPlayerService where
  data : List MprisPlayerData
  conn : Conn
  deriving DecidableEq

/-- Discovery state machine states (enum State). -/
inductive State
  | Init
  | Active (conn : Conn) (names : List String)
  | Error
  deriving DecidableEq

/-- Whether a state is the Active variant. -/
def State.isActive : State → Bool
  | State.Active _ _ => true
  | _ => false

/-- Items of the merged multiplexer stream (enum Event). -/
inductive Event
  | NameOwner
  | Metadata
  | Volume
  deriving DecidableEq

/-- Events delivered on the subscriber channel (ServiceEvent, instantiated
at this service). -/
inductive ServiceEvent
  | Init (svc : MprisPlayerService)
  | Update (data : List MprisPlayerData)
  deriving DecidableEq

/-- Whether a subscriber event is an Update. -/
def ServiceEvent.isUpdate : ServiceEvent → Bool
  | ServiceEvent.Update _ => true
  | ServiceEvent.Init _ => false

/-- Embedding of MprisPlayerService::initialize_data (named init_data
here): enumerate bus names, keep those carrying the player-namespace
prefix, and build the snapshot for them; fails exactly when the bus
enumeration fails. -/
def init_data (bus : BusEnv) : Except Unit (List String × List MprisPlayerData) :=
  match bus.listNames with
  | Except.error e => Except.error e
  | Except.ok allNames =>
      let names := allNames.filter (fun a => a.startsWith MPRIS_PLAYER_SERVICE_PREFIX)
      Except.ok (names, get_mpris_player_data bus.connect names)

/-- Environment of one pass through the Active arm: the bus context in
which events is constructed, and the finite stream of multiplexer items it
then yields, each carrying the bus context at its handling time. -/
structure ActiveEnv where
  eventsBus : BusEnv
  stream : List (Event × BusEnv)

/-- Environment of one start_listening step: the session connection
attempt, the bus context of initial discovery, and the Active-arm
environment. -/
structure StepEnv where
  session : Option Conn
  initBus : BusEnv
  active : ActiveEnv

/-- The while-let loop of the Active arm of start_listening: a NameOwner
item re-runs discovery, and on success publishes an Update and returns
Active with the new names (dropping the stale stream); on failure it only
logs and keeps looping. Metadata and Volume items rebuild the snapshot
over the current names and publish an Update. Stream exhaustion returns
Active unchanged. Returns the resulting state and the published events. -/
def active_loop (conn : Conn) (names : List String) :
    List (Event × BusEnv) → State × List ServiceEvent
  | [] => (State.Active conn names, [])
  | (ev, bus) :: rest =>
    match ev with
    | Event.NameOwner =>
        match init_data bus with
        | Except.ok (newNames, data) =>
            (State.Active conn newNames, [ServiceEvent.Update data])
        | Except.error _ => active_loop conn names rest
    | Event.Metadata =>
        let data := get_mpris_player_data bus.connect names
        let r := active_loop conn names rest
        (r.1, ServiceEvent.Update data :: r.2)
    | Event.Volume =>
        let data := get_mpris_player_data bus.connect names
        let r := active_loop conn names rest
        (r.1, ServiceEvent.Update data :: r.2)

/-- Embedding of MprisPlayerService::start_listening: one step of the
discovery state machine, returning the next state and the events sent on
the subscriber channel during the step. In the source the Error arm awaits
a pending stream and never wakes; the model collapses that indefinite
suspension into an emission-free self-loop. -/
def start_listening (env : StepEnv) : State → State × List ServiceEvent
  | State.Init =>
      match env.session with
      | some conn =>
          match init_data env.initBus with
          | Except.ok (names, data) =>
              (State.Active conn names,
               [ServiceEvent.Init { data := data, conn := conn }])
          | Except.error _ => (State.Error, [])
      | none => (State.Error, [])
  | State.Active conn names =>
      match events env.active.eventsBus with
      | Except.ok _ => active_loop conn names env.active.stream
      | Except.error _ => (State.Error, [])
  | State.Error => (State.Error, [])

/-- The driver loop of subscribe: starting from State::Init, repeatedly
feed the state through start_listening. run envs n is the state after n
steps together with everything sent on the subscriber channel so far. -/
def run (envs : Nat → StepEnv) : Nat → State × List ServiceEvent
  | 0 => (State.Init, [])
  | n + 1 =>
      let r := run envs n
      let r2 := start_listening (envs n) r.1
      (r2.1, r.2 ++ r2.2)

/-- Every event published by the Active-arm loop is an Update. -/
theorem active_loop_outputs_updates (conn : Conn) (names : List String)
    (stream : List (Event × BusEnv)) :
    ∀ e ∈ (active_loop conn names stream).2, e.isUpdate = true := by
  induction stream generalizing names with
  | nil => intro e he; simp [active_loop] at he
  | cons item rest ih =>
    obtain ⟨ev, bus⟩ := item
    intro e he
    cases ev with
    | NameOwner =>
      rw [active_loop] at he
      cases h : init_data bus with
      | ok v =>
        rw [h] at he
        simp at he
        simp [he, ServiceEvent.isUpdate]
      | error u =>
        rw [h] at he
        exact ih names e he
    | Metadata =>
      rw [active_loop] at he
      simp at he
      rcases he with he | he
      · simp [he, ServiceEvent.isUpdate]
      · exact ih names e he
    | Volume =>
      rw [active_loop] at he
      simp at he
      rcases he with he | he
      · simp [he, ServiceEvent.isUpdate]
      · exact ih names e he

/-- The Active-arm loop always ends in an Active state. -/
theorem active_loop_stays_active (conn : Conn) (names : List String)
    (stream : List (Event × BusEnv)) :
    (active_loop conn names stream).1.isActive = true := by
  induction stream generalizing names with
  | nil => simp [active_loop, State.isActive]
  | cons item rest ih =>
    obtain ⟨ev, bus⟩ := item
    cases ev with
    | NameOwner =>
      rw [active_loop]
      cases h : init_data bus with
      | ok v => simp [h, State.isActive]
      | error u => simp [h]; exact ih names
    | Metadata => rw [active_loop]; exact ih names
    | Volume => rw [active_loop]; exact ih names

/-- C3: in the Active state, when construction of a new event multiplexer
fails, the step transitions to the terminal Error state (and publishes
nothing), with no retry. -/
theorem active_mux_failure_to_error (env : StepEnv) (conn : Conn)
    (names : List String) (h : events env.active.eventsBus = Except.error ()) :
    start_listening env (State.Active conn names) = (State.Error, []) := by
  simp [start_listening, h]

/-- A bus context in which the enumeration itself fails. -/
def busFail : BusEnv :=
  { listNames := Except.error ()
    connect := fun _ => none }

/-- A step environment in which every bus interaction fails. -/
def envFail : StepEnv :=
  { session := none
    initBus := busFail
    active := { eventsBus := busFail, stream := [] } }

/-- Witness for C3: with a failing bus, the Active state steps to Error. -/
theorem active_mux_failure_to_error_witness :
    events envFail.active.eventsBus = Except.error ()
    ∧ start_listening envFail (State.Active Conn.session []) = (State.Error, []) :=
  ⟨rfl, active_mux_failure_to_error envFail Conn.session [] rfl⟩

/-- C4: once Active, as long as the multiplexer itself is constructed
(the only transport-level step of the arm), the machine ends the step in an
Active state again, whatever the stream contains; in particular a NameOwner
item whose re-discovery fails is only logged and absorbed. -/
theorem active_absorbs_nontransport_failures (env : StepEnv) (conn : Conn)
    (names : List String) (subs : List BusSubscription)
    (h : events env.active.eventsBus = Except.ok subs) :
    (start_listening env (State.Active conn names)).1.isActive = true := by
  simp only [start_listening, h]
  exact active_loop_stays_active conn names env.active.stream

/-- A bus context listing no names at all, on which events succeeds. -/
def busOkEmpty : BusEnv :=
  { listNames := Except.ok []
    connect := fun _ => none }

/-- An Active-step environment whose stream holds one NameOwner item whose
re-discovery pass fails. -/
def envRediscoveryFail : StepEnv :=
  { session := some Conn.session
    initBus := busOkEmpty
    active := { eventsBus := busOkEmpty, stream := [(Event.NameOwner, busFail)] } }

/-- Witness for C4: a NameOwner event whose re-discovery fails leaves the
machine Active. -/
theorem active_absorbs_nontransport_failures_witness :
    events envRediscoveryFail.active.eventsBus
      = Except.ok [BusSubscription.nameOwnerChanged]
    ∧ (start_listening envRediscoveryFail
        (State.Active Conn.session ["org.mpris.MediaPlayer2.A"])).1.isActive = true :=
  ⟨rfl,
   active_absorbs_nontransport_failures envRediscoveryFail Conn.session
     ["org.mpris.MediaPlayer2.A"] [BusSubscription.nameOwnerChanged] rfl⟩

/-- C7: if the session connection or the initial discovery fails on the
first step, the machine is in the terminal Error state after every
subsequent step and the subscriber channel never receives any event; every
step taken from Error stays in Error and emits nothing. -/
theorem init_transport_failure_terminal (envs : Nat → StepEnv)
    (h : (envs 0).session = none ∨ (envs 0).initBus.listNames = Except.error ()) :
    ∀ n, 1 ≤ n → run envs n = (State.Error, []) := by
  have h1 : start_listening (envs 0) State.Init = (State.Error, []) := by
    rcases h with h | h
    · simp [start_listening, h]
    · cases hs : (envs 0).session with
      | none => simp [start_listening, hs]
      | some c => simp [start_listening, hs, init_data, h]
  have hrun : ∀ m : Nat, run envs (m + 1) = (State.Error, []) := by
    intro m
    induction m with
    | zero => simp [run, h1]
    | succ k ih =>
      rw [run, ih]
      simp [start_listening]
  intro n hn
  obtain ⟨m, rfl⟩ : ∃ m, n = m + 1 := ⟨n - 1, by omega⟩
  exact hrun m

/-- An environment sequence in which every bus interaction fails. -/
def envsAllFail : Nat → StepEnv := fun _ => envFail

/-- Witness for C7: with a failing session connection, after two steps the
machine is in Error and nothing was emitted. -/
theorem init_transport_failure_terminal_witness :
    ((envsAllFail 0).session = none
      ∨ (envsAllFail 0).initBus.listNames = Except.error ())
    ∧ run envsAllFail 2 = (State.Error, []) :=
  ⟨Or.inl rfl,
   init_transport_failure_terminal envsAllFail (Or.inl rfl) 2 (by decide)⟩

/-- Shape of a well-formed subscriber trace: either nothing was delivered,
or the first delivered event is an Init and everything after it is an
Update (hence at most one Init overall). -/
def initThenUpdates : List ServiceEvent → Prop
  | [] => True
  | e :: rest => e.isUpdate = false ∧ ∀ x ∈ rest, x.isUpdate = true

/-- Appending Update-only output to a nonempty well-formed trace keeps it
well-formed. -/
theorem initThenUpdates_append (e : ServiceEvent) (rest out2 : List ServiceEvent)
    (h : initThenUpdates (e :: rest)) (h2 : ∀ x ∈ out2, x.isUpdate = true) :
    initThenUpdates ((e :: rest) ++ out2) := by
  obtain ⟨he, hrest⟩ := h
  refine ⟨he, ?_⟩
  intro x hx
  rcases List.mem_append.mp hx with hx | hx
  · exact hrest x hx
  · exact h2 x hx

/-- Invariant of the driver loop: the emitted trace is well-formed, the
Init state has emitted nothing yet, and an Active state has emitted
something (its Init). -/
theorem run_invariant (envs : Nat → StepEnv) (n : Nat) :
    initThenUpdates (run envs n).2
    ∧ ((run envs n).1 = State.Init → (run envs n).2 = [])
    ∧ ((run envs n).1.isActive = true → (run envs n).2 ≠ []) := by
  induction n with
  | zero =>
    refine ⟨trivial, fun _ => rfl, ?_⟩
    simp [run, State.isActive]
  | succ k ih =>
    obtain ⟨hshape, hinit, hact⟩ := ih
    rw [run]
    cases hst : (run envs k).1 with
    | Init =>
      have hout : (run envs k).2 = [] := hinit hst
      rw [hout]
      cases hs : (envs k).session with
      | none => simp [start_listening, hs, initThenUpdates, State.isActive]
      | some c =>
        cases hd : init_data (envs k).initBus with
        | ok v =>
          simp [start_listening, hs, hd, initThenUpdates, State.isActive,
            ServiceEvent.isUpdate]
        | error u =>
          simp [start_listening, hs, hd, initThenUpdates, State.isActive]
    | Active c ns =>
      have hne : (run envs k).2 ≠ [] := hact (by rw [hst]; rfl)
      obtain ⟨e, rest, hcons⟩ : ∃ e rest, (run envs k).2 = e :: rest := by
        cases hc : (run envs k).2 with
        | nil => exact absurd hc hne
        | cons a b => exact ⟨a, b, rfl⟩
      rw [hcons] at hshape
      cases hev : events (envs k).active.eventsBus with
      | ok subs =>
        simp only [start_listening, hev]
        refine ⟨?_, ?_, ?_⟩
        · rw [hcons]
          exact initThenUpdates_append e rest _ hshape
            (active_loop_outputs_updates c ns (envs k).active.stream)
        · intro habs
          have := active_loop_stays_active c ns (envs k).active.stream
          rw [habs] at this
          simp [State.isActive] at this
        · intro _
          rw [hcons]
          simp
      | error u =>
        simp only [start_listening, hev, List.append_nil]
        refine ⟨by rw [hcons]; exact hshape, ?_, ?_⟩
        · intro habs
          cases habs
        · intro habs
          simp [State.isActive] at habs
    | Error =>
      simp only [start_listening, List.append_nil]
      refine ⟨hshape, ?_, ?_⟩
      · intro habs
        cases habs
      · intro habs
        simp [State.isActive] at habs

/-- C6: on every run of the driver loop, the subscriber channel receives
at most one Init (the count of non-Update events is at most one), the
first event received, if any, is an Init, and every Update comes after it. -/
theorem subscriber_trace_shape (envs : Nat → StepEnv) (n : Nat) :
    initThenUpdates (run envs n).2
    ∧ (run envs n).2.countP (fun e => !e.isUpdate) ≤ 1 := by
  have hshape := (run_invariant envs n).1
  refine ⟨hshape, ?_⟩
  cases hc : (run envs n).2 with
  | nil => simp
  | cons e rest =>
    rw [hc] at hshape
    obtain ⟨he, hrest⟩ := hshape
    rw [List.countP_cons]
    have hzero : rest.countP (fun e => !e.isUpdate) = 0 := by
      rw [List.countP_eq_zero]
      intro x hx
      simp [hrest x hx]
    simp [hzero, he]

/-- Targeted playback commands (enum PlayerCommand). -/
inductive PlayerCommand
  | Prev
  | PlayPause
  | Next
  | Volume (v : ℚ)
  deriving DecidableEq

/-- A command addressed to one endpoint (struct MprisPlayerCommand). -/
structure MprisPlayerCommand where
  service_name : String
  command : PlayerCommand
  deriving DecidableEq

/-- A proxy method invocation performed by the command task. -/
inductive ProxyCall
  | previous
  | playPause
  | next
  | setVolume (v : ℚ)
  deriving DecidableEq

/-- Observable behaviour of the iced Task returned by command: the proxy
calls it performs and the events it delivers on the subscriber channel.
Task::none is the value with no calls and no outputs. -/
structure TaskResult where
  calls : List ProxyCall
  outputs : List ServiceEvent
  deriving DecidableEq

/-- Embedding of Service::command for MprisPlayerService: look the target
identity up in the current snapshot; if present, perform the single proxy
call (converting a Volume percentage v to the native value v / 100), then
rebuild the snapshot over the identity set the snapshot already held
(connectAfter is the connect oracle at rebuild time, after the call took
effect) and deliver it as one Update; if absent, return Task::none. -/
def command (svc : MprisPlayerService) (connectAfter : String → Option Proxy)
    (cmd : MprisPlayerCommand) : TaskResult :=
  let names := svc.data.map (fun d => d.service)
  match svc.data.find? (fun d => d.service == cmd.service_name) with
  | some _ =>
      let call :=
        match cmd.command with
        | PlayerCommand.Prev => ProxyCall.previous
        | PlayerCommand.PlayPause => ProxyCall.playPause
        | PlayerCommand.Next => ProxyCall.next
        | PlayerCommand.Volume v => ProxyCall.setVolume (v / 100)
      { calls := [call]
        outputs := [ServiceEvent.Update (get_mpris_player_data connectAfter names)] }
  | none => { calls := [], outputs := [] }

/-- In a rebuilt snapshot, the first entry for an identity that is in the
input list and connects is the entry built from its proxy. -/
theorem get_mpris_player_data_find (connect : String → Option Proxy)
    (names : List String) (tgt : String) (p : Proxy)
    (hmem : tgt ∈ names) (hconn : connect tgt = some p) :
    (get_mpris_player_data connect names).find? (fun d => d.service == tgt)
      = some (buildEntry tgt p) := by
  rw [get_mpris_player_data_eq_filterMap]
  induction names with
  | nil => cases hmem
  | cons n rest ih =>
    rw [List.filterMap_cons]
    by_cases hn : n = tgt
    · subst hn
      rw [hconn]
      simp only [Option.map_some']
      rw [List.find?_cons_of_pos]
      simp [buildEntry]
    · have hmem2 : tgt ∈ rest := by
        rcases List.mem_cons.mp hmem with h | h
        · exact absurd h.symm hn
        · exact h
      cases hc : connect n with
      | some q =>
        simp only [Option.map_some']
        rw [List.find?_cons_of_neg]
        · exact ih hmem2
        · simp [buildEntry, hn]
      | none =>
        simp only [Option.map_none']
        exact ih hmem2

/-- The snapshot whose only entry is the endpoint A of proxyA. -/
def svcA : MprisPlayerService :=
  { data := [buildEntry "org.mpris.MediaPlayer2.A" proxyA]
    conn := Conn.session }

/-- A connect oracle on which every proxy construction fails. -/
def connectNone : String → Option Proxy := fun _ => none

set_option maxRecDepth 8192 in
/-- C1 counterexample: against a snapshot holding only endpoint A, a
command targeting the absent identity B yields Task::none — no proxy call,
but also zero Update republishes on the subscriber channel, not exactly
one. -/
theorem unknown_target_no_republish :
    svcA.data.map MprisPlayerData.service = ["org.mpris.MediaPlayer2.A"]
    ∧ command svcA connectNone
        { service_name := "org.mpris.MediaPlayer2.B"
          command := PlayerCommand.PlayPause }
        = { calls := [], outputs := [] }
    ∧ (command svcA connectNone
        { service_name := "org.mpris.MediaPlayer2.B"
          command := PlayerCommand.PlayPause }).outputs.length ≠ 1 := by
  refine ⟨rfl, rfl, ?_⟩
  intro habs
  rw [show (command svcA connectNone
    { service_name := "org.mpris.MediaPlayer2.B"
      command := PlayerCommand.PlayPause }).outputs = [] from rfl] at habs
  cases habs

/-- C1 amended: a command whose target identity is absent from the
snapshot leaves the snapshot untouched and is a complete no-op: it
performs no proxy call and triggers no Update republish (the returned task
is empty). -/
theorem unknown_target_noop (svc : MprisPlayerService)
    (connectAfter : String → Option Proxy) (cmd : MprisPlayerCommand)
    (h : svc.data.find? (fun d => d.service == cmd.service_name) = none) :
    command svc connectAfter cmd = { calls := [], outputs := [] } := by
  simp [command, h]

set_option maxRecDepth 8192 in
/-- Witness for the amended C1 at the concrete absent target B. -/
theorem unknown_target_noop_witness :
    svcA.data.find? (fun d => d.service == "org.mpris.MediaPlayer2.B") = none
    ∧ command svcA connectNone
        { service_name := "org.mpris.MediaPlayer2.B"
          command := PlayerCommand.PlayPause }
        = { calls := [], outputs := [] } :=
  ⟨rfl,
   unknown_target_noop svcA connectNone
     { service_name := "org.mpris.MediaPlayer2.B"
       command := PlayerCommand.PlayPause } rfl⟩

/-- C8: a Volume(pv) command whose target is present in the snapshot
performs exactly one proxy call, set-volume with the native value pv / 100
(0.75 when pv = 75), then delivers exactly one Update holding the snapshot
rebuilt over the identity set the snapshot already held; and if at rebuild
time the target connects and its volume read-back reflects the set value
3/4, the Update entry for the target carries volume percentage 75. -/
theorem volume_command_exec (svc : MprisPlayerService)
    (connectAfter : String → Option Proxy) (tgt : String) (pv : ℚ)
    (s : MprisPlayerData)
    (hfind : svc.data.find? (fun d => d.service == tgt) = some s) :
    (command svc connectAfter
        { service_name := tgt, command := PlayerCommand.Volume pv }).calls
      = [ProxyCall.setVolume (pv / 100)]
    ∧ (pv = 75 →
        (command svc connectAfter
            { service_name := tgt, command := PlayerCommand.Volume pv }).calls
          = [ProxyCall.setVolume (3/4)])
    ∧ (command svc connectAfter
        { service_name := tgt, command := PlayerCommand.Volume pv }).outputs
      = [ServiceEvent.Update
          (get_mpris_player_data connectAfter (svc.data.map (fun d => d.service)))]
    ∧ (∀ p : Proxy, connectAfter tgt = some p → p.volumeRead = some (3/4) →
        (get_mpris_player_data connectAfter
            (svc.data.map (fun d => d.service))).find? (fun d => d.service == tgt)
          = some (buildEntry tgt p)
        ∧ (buildEntry tgt p).volume = some 75) := by
  have hcalls : (command svc connectAfter
      { service_name := tgt, command := PlayerCommand.Volume pv }).calls
      = [ProxyCall.setVolume (pv / 100)] := by
    simp [command, hfind]
  refine ⟨hcalls, ?_, ?_, ?_⟩
  · intro hpv
    rw [hcalls, hpv]
    norm_num
  · simp [command, hfind]
  · intro p hconn hv
    have hbeq := List.find?_some hfind
    have hmemd := List.mem_of_find?_eq_some hfind
    have hst : s.service = tgt := by simpa using hbeq
    have hmem : tgt ∈ svc.data.map (fun d => d.service) := by
      rw [← hst]
      exact List.mem_map_of_mem _ hmemd
    refine ⟨get_mpris_player_data_find connectAfter _ tgt p hmem hconn, ?_⟩
    simp [buildEntry, hv]
    norm_num

/-- The target proxy after the set-volume call took effect: its volume
read-back reflects the set native value 3/4. -/
def proxy75 : Proxy :=
  { metadataRaw := none
    volumeRead := some (3/4) }

/-- A connect oracle on which only endpoint A connects, yielding the
post-command proxy. -/
def connect75 : String → Option Proxy :=
  fun s => if s = "org.mpris.MediaPlayer2.A" then some proxy75 else none

set_option maxRecDepth 8192 in
/-- Witness for C8: Volume(75) against endpoint A calls set-volume with
3/4 and the rebuilt entry for A has volume percentage 75. -/
theorem volume_command_exec_witness :
    svcA.data.find? (fun d => d.service == "org.mpris.MediaPlayer2.A")
      = some (buildEntry "org.mpris.MediaPlayer2.A" proxyA)
    ∧ (command svcA connect75
        { service_name := "org.mpris.MediaPlayer2.A"
          command := PlayerCommand.Volume 75 }).calls
      = [ProxyCall.setVolume (3/4)]
    ∧ (buildEntry "org.mpris.MediaPlayer2.A" proxy75).volume = some 75 :=
  ⟨rfl,
   (volume_command_exec svcA connect75 "org.mpris.MediaPlayer2.A" 75
     (buildEntry "org.mpris.MediaPlayer2.A" proxyA) rfl).2.1 rfl,
   ((volume_command_exec svcA connect75 "org.mpris.MediaPlayer2.A" 75
     (buildEntry "org.mpris.MediaPlayer2.A" proxyA) rfl).2.2.2 proxy75 rfl rfl).2⟩

end Mpris
